import Mathlib

set_option linter.unusedVariables false

/-! Shallow embedding of the beads-viewer issue core: the data model
(src/types), the Zustand store mutation paths (useIssueStore), the
WebSocket push handlers, the dependency resolver (src/lib/jsonl.ts),
the side-panel dependency editor (IssueSidePanel.tsx) and the
sequential id allocator (server test helper generateNextIssueId). -/

/-- Status union type from src/types: open, in_progress, blocked, closed. -/
inductive Status
  | «open»
  | in_progress
  | blocked
  | closed
  deriving DecidableEq, Repr

/-- IssueType union type. -/
inductive IssueType
  | bug
  | feature
  | task
  | epic
  | chore
  deriving DecidableEq, Repr

/-- DependencyType union type: blocks, related, parent-child, discovered-from. -/
inductive DependencyType
  | blocks
  | related
  | parentChild
  | discoveredFrom
  deriving DecidableEq, Repr

/-- Dependency record: a directed edge owned by the source issue. -/
structure Dependency where
  issue_id : String
  depends_on_id : String
  type : DependencyType
  created_at : String
  created_by : String
  deriving DecidableEq, Repr

/-- Issue record from src/types. The derived read-only `dependents` view is not
stored state and is not part of the embedding (no claim mentions it). -/
structure Issue where
  id : String
  title : String
  description : Option String := none
  design : Option String := none
  acceptance_criteria : Option String := none
  notes : Option String := none
  status : Status
  priority : Nat
  issue_type : IssueType
  assignee : Option String := none
  estimated_minutes : Option Nat := none
  created_at : String
  updated_at : String
  closed_at : Option String := none
  external_ref : Option String := none
  dependencies : Option (List Dependency) := none
  labels : Option (List String) := none
  deriving DecidableEq, Repr

/-- Partial<Issue> value as used by updateIssue: a field present in the patch
overwrites the field of the record it is spread over. `updated_at` is always
overwritten by the mutation itself, so it is not carried by the patch. -/
structure IssuePatch where
  id : Option String := none
  title : Option String := none
  description : Option String := none
  design : Option String := none
  acceptance_criteria : Option String := none
  notes : Option String := none
  status : Option Status := none
  priority : Option Nat := none
  issue_type : Option IssueType := none
  assignee : Option String := none
  estimated_minutes : Option Nat := none
  created_at : Option String := none
  closed_at : Option String := none
  external_ref : Option String := none
  dependencies : Option (List Dependency) := none
  labels : Option (List String) := none
  deriving DecidableEq, Repr

/-- The spread `\x7b ...issue, ...updates \x7d` of updateIssue. -/
def applyPatch (u : IssuePatch) (i : Issue) : Issue :=
  { id := u.id.getD i.id
    title := u.title.getD i.title
    description := u.description.or i.description
    design := u.design.or i.design
    acceptance_criteria := u.acceptance_criteria.or i.acceptance_criteria
    notes := u.notes.or i.notes
    status := u.status.getD i.status
    priority := u.priority.getD i.priority
    issue_type := u.issue_type.getD i.issue_type
    assignee := u.assignee.or i.assignee
    estimated_minutes := u.estimated_minutes.or i.estimated_minutes
    created_at := u.created_at.getD i.created_at
    updated_at := i.updated_at
    closed_at := u.closed_at.or i.closed_at
    external_ref := u.external_ref.or i.external_ref
    dependencies := u.dependencies.or i.dependencies
    labels := u.labels.or i.labels }

/-- Outcome of the fetch to the Backend, as observed by the store code:
a successful response carrying the authoritative record, a completed
response with a non-success status, or a thrown network error. -/
inductive BackendResult
  | ok (issue : Issue)
  | httpError
  | networkError (msg : String)
  deriving DecidableEq, Repr

/-- The optimistic step of updateIssue: map over the collection, spreading the
patch and stamping `updated_at` on the record whose id matches. -/
def optimisticPatch (issues : List Issue) (id : String) (upd : IssuePatch)
    (now : String) : List Issue :=
  issues.map (fun i => if i.id = id then { applyPatch upd i with updated_at := now } else i)

/-- updateIssue from useIssueStore, run to completion against one Backend
outcome. Returns the final issues collection and the error field. On ok the
server record replaces the matching record; on a non-ok response the snapshot
`prevIssues` is restored and the thrown error is caught, setting the error
message; on a network error the catch block only sets the error message and
the optimistic collection is kept. -/
def updateIssueRun (issues : List Issue) (id : String) (upd : IssuePatch)
    (now : String) (resp : BackendResult) : List Issue × Option String :=
  let optimistic := optimisticPatch issues id upd now
  match resp with
  | .ok updated => (optimistic.map (fun i => if i.id = id then updated else i), none)
  | .httpError => (issues, some "Failed to update issue")
  | .networkError msg => (optimistic, some msg)

/-- The optimistic step of deleteIssue: set status closed on the matching record. -/
def closeOptimistic (issues : List Issue) (id : String) : List Issue :=
  issues.map (fun i => if i.id = id then { i with status := Status.closed } else i)

/-- deleteIssue (close path) from useIssueStore, run to completion against one
Backend outcome; same failure structure as updateIssueRun. -/
def deleteIssueRun (issues : List Issue) (id : String) (resp : BackendResult) :
    List Issue × Option String :=
  let optimistic := closeOptimistic issues id
  match resp with
  | .ok closedIssue => (optimistic.map (fun i => if i.id = id then closedIssue else i), none)
  | .httpError => (issues, some "Failed to close issue")
  | .networkError msg => (optimistic, some msg)

/-- The issue:created WebSocket handler: if a record with the pushed id already
exists the state is returned unchanged, otherwise the record is prepended. -/
def onIssueCreated (issues : List Issue) (data : Issue) : List Issue :=
  if issues.any (fun i => i.id == data.id) then issues else data :: issues

/-- The issue:updated WebSocket handler: map over the collection replacing the
record whose id matches with the pushed record. -/
def onIssueUpdated (issues : List Issue) (data : Issue) : List Issue :=
  issues.map (fun i => if i.id = data.id then data else i)

/-- The blocks-typed dependencies of an issue:
`issue.dependencies?.filter(dep => dep.type === 'blocks') || []`. -/
def blockingDepsOf (i : Issue) : List Dependency :=
  (i.dependencies.getD []).filter (fun d => d.type == DependencyType.blocks)

/-- The inner test shared by getReadyIssues and getBlockedIssues: the first
record found with the dependency's target id exists and its status is one of
open, in_progress, blocked. -/
def isOpenBlocker (issues : List Issue) (d : Dependency) : Bool :=
  match issues.find? (fun i => i.id == d.depends_on_id) with
  | some blocker => [Status.«open», Status.in_progress, Status.blocked].contains blocker.status
  | none => false

/-- getReadyIssues from src/lib/jsonl.ts. -/
def getReadyIssues (issues : List Issue) : List Issue :=
  let openIssues := issues.filter (fun i => i.status == Status.«open»)
  openIssues.filter (fun issue =>
    let blockingDeps := blockingDepsOf issue
    if blockingDeps.length = 0 then true
    else ! blockingDeps.any (fun d => isOpenBlocker issues d))

/-- getBlockedIssues from src/lib/jsonl.ts. -/
def getBlockedIssues (issues : List Issue) : List Issue :=
  issues.filter (fun issue =>
    if issue.status == Status.closed then false
    else (blockingDepsOf issue).any (fun d => isOpenBlocker issues d))

/-- The trailing contiguous run of decimal digits of a string, the part the
regex match against a digit-run-at-end pattern captures. -/
def trailingDigits (s : String) : List Char :=
  (s.data.reverse.takeWhile Char.isDigit).reverse

/-- Decimal value of a digit list, as parseInt computes on the captured run. -/
def digitsVal (ds : List Char) : Nat :=
  ds.foldl (fun n c => n * 10 + (c.toNat - 48)) 0

/-- The candidate an id contributes in generateNextIssueId:
the parsed trailing digit run, or 0 when the id has no trailing digits. -/
def idCandidate (s : String) : Nat :=
  if trailingDigits s = [] then 0 else digitsVal (trailingDigits s)

/-- generateNextIssueId (server logic, as fixed by the test helper): take the
maximum candidate over all ids (0 when the collection is empty) and return
the prefix BD- with the successor appended. -/
def generateNextIssueId (issues : List Issue) : String :=
  let numericIds := issues.map (fun i => idCandidate i.id)
  let maxId := if numericIds.length > 0 then numericIds.foldl max 0 else 0
  "BD-" ++ toString (maxId + 1)

/-- The trim applied to the dependency input field: strip leading and
trailing whitespace, as an executable function on the character list. -/
def jsTrim (s : String) : String :=
  String.mk (((s.data.dropWhile Char.isWhitespace).reverse.dropWhile Char.isWhitespace).reverse)

/-- handleAddDependency from IssueSidePanel.tsx, modelled on the edited
issue's dependency list. Returns the resulting dependency list and the error
message set by the call (none on the empty-input early return and on success).
Checks, in order: blank trimmed input (plain early return), duplicate
`depends_on_id` on the edited list, target id present in the collection. -/
def handleAddDependency (issues : List Issue) (issue : Issue)
    (editedDeps : List Dependency) (newDependencyId : String)
    (newDependencyType : DependencyType) (now createdBy : String) :
    List Dependency × Option String :=
  let t := jsTrim newDependencyId
  if t = "" then (editedDeps, none)
  else if editedDeps.any (fun d => d.depends_on_id == t) then
    (editedDeps, some "Dependency already exists")
  else
    match issues.find? (fun i => i.id == t) with
    | none => (editedDeps, some ("Issue " ++ t ++ " not found"))
    | some _ =>
        (editedDeps ++ [{ issue_id := issue.id, depends_on_id := t,
                          type := newDependencyType, created_at := now,
                          created_by := createdBy }], none)

/-- A sample issue with the given id, status and dependency list, used to
evaluate the operations at concrete inputs. -/
def mkIssue (id : String) (st : Status) (deps : List Dependency) : Issue :=
  { id := id, title := "t", status := st, priority := 1, issue_type := IssueType.task,
    created_at := "2024-01-01", updated_at := "2024-01-01", dependencies := some deps }

/-- C8: applying the issue:updated push handler twice in a row leaves the
issues collection exactly as applying it once; the handler replaces the
record whose id matches with the event's full authoritative record. -/
theorem issueUpdated_idempotent (issues : List Issue) (data : Issue) :
    onIssueUpdated (onIssueUpdated issues data) data = onIssueUpdated issues data := by
  induction issues with
  | nil => rfl
  | cons a l ih =>
      simp only [onIssueUpdated, List.map_cons, List.map_map] at ih ⊢
      by_cases h : a.id = data.id <;> simp [h, ih]

/-- C1 counterexample: a concrete updateIssue run whose Backend call fails
with a thrown network error leaves the optimistically patched collection in
place, so the post-failure collection differs from the pre-mutation one. -/
theorem updateIssue_networkError_not_rolled_back :
    (updateIssueRun [mkIssue "BD-1" Status.«open» []] "BD-1"
        { title := some "new" } "2024-01-02" (BackendResult.networkError "network down")).1
      ≠ [mkIssue "BD-1" Status.«open» []] := by decide

/-- C1 amended: when the Backend responds with a non-success status (which is
also how Backend-reported validation failures arrive), both updateIssue and
deleteIssue restore the exact pre-mutation collection; when the fetch itself
throws (network error), the optimistic mutation is retained and only the
error message is surfaced. -/
theorem mutation_rollback_behavior (issues : List Issue) (id : String)
    (upd : IssuePatch) (now msg : String) :
    (updateIssueRun issues id upd now BackendResult.httpError).1 = issues ∧
    (deleteIssueRun issues id BackendResult.httpError).1 = issues ∧
    (updateIssueRun issues id upd now (BackendResult.networkError msg)).1
      = optimisticPatch issues id upd now ∧
    (deleteIssueRun issues id (BackendResult.networkError msg)).1
      = closeOptimistic issues id :=
  ⟨rfl, rfl, rfl, rfl⟩

/-- C2: with the blocks edge A depends-on B already present, evaluating
handleAddDependency on issue B with target A and type blocks appends the
reverse blocks edge and reports no error: the insertion that closes a cycle
in the blocks graph is accepted, not rejected — there is no cycle check. -/
theorem addDependency_accepts_blocks_cycle :
    handleAddDependency
        [mkIssue "A" Status.«open» [⟨"A", "B", DependencyType.blocks, "t0", "u"⟩],
         mkIssue "B" Status.«open» []]
        (mkIssue "B" Status.«open» []) [] "A" DependencyType.blocks "t1" "system"
      = ([⟨"B", "A", DependencyType.blocks, "t1", "system"⟩], none) := by decide

/-- C7: evaluating handleAddDependency on an issue whose own id is given as
the target appends a self-edge and reports no error: an issue can be made to
declare a dependency on itself. -/
theorem addDependency_accepts_self_edge :
    handleAddDependency [mkIssue "A" Status.«open» []] (mkIssue "A" Status.«open» [])
        [] "A" DependencyType.blocks "t1" "system"
      = ([⟨"A", "A", DependencyType.blocks, "t1", "system"⟩], none) := by decide

/-- C9 counterexample: when a record with the pushed id is already present,
the issue:created handler returns the collection unchanged — the existing
record keeps its old fields instead of being overwritten by the pushed
record, although the two records differ. -/
theorem issueCreated_does_not_overwrite :
    onIssueCreated [mkIssue "A" Status.«open» []] (mkIssue "A" Status.closed [])
        = [mkIssue "A" Status.«open» []] ∧
      mkIssue "A" Status.«open» [] ≠ mkIssue "A" Status.closed [] := by decide

/-- C9 amended: if the pushed id is unknown the record is prepended; if a
record with that id is already present the handler returns the collection
unchanged (the pushed record is discarded — no overwrite and no duplicate);
when the collection held at most one record with that id beforehand, it holds
exactly one afterwards. -/
theorem issueCreated_insert_or_skip (issues : List Issue) (data : Issue) :
    ((∀ i ∈ issues, i.id ≠ data.id) → onIssueCreated issues data = data :: issues) ∧
    ((∃ i ∈ issues, i.id = data.id) → onIssueCreated issues data = issues) ∧
    ((issues.filter (fun i => i.id == data.id)).length ≤ 1 →
      ((onIssueCreated issues data).filter (fun i => i.id == data.id)).length = 1) := by
  by_cases hA : issues.any (fun i => i.id == data.id) = true
  · obtain ⟨x, hx, hxid⟩ := List.any_eq_true.mp hA
    rw [beq_iff_eq] at hxid
    have hcreated : onIssueCreated issues data = issues := by
      rw [onIssueCreated, if_pos hA]
    have hx' : x ∈ issues.filter (fun i => i.id == data.id) :=
      List.mem_filter.mpr ⟨hx, beq_iff_eq.mpr hxid⟩
    have hpos : 0 < (issues.filter (fun i => i.id == data.id)).length :=
      List.length_pos.mpr (List.ne_nil_of_mem hx')
    exact ⟨fun h => absurd hxid (h x hx), fun _ => hcreated,
      fun hle => by rw [hcreated]; omega⟩
  · have hall : ∀ i ∈ issues, i.id ≠ data.id := by
      intro i hi hid
      exact hA (List.any_eq_true.mpr ⟨i, hi, beq_iff_eq.mpr hid⟩)
    have hcreated : onIssueCreated issues data = data :: issues := by
      rw [onIssueCreated, if_neg hA]
    have hfilter : issues.filter (fun i => i.id == data.id) = [] := by
      rw [List.filter_eq_nil_iff]
      intro a ha
      simp only [beq_iff_eq]
      exact hall a ha
    refine ⟨fun _ => hcreated, fun h => ?_, fun _ => ?_⟩
    · obtain ⟨x, hx, hxid⟩ := h
      exact absurd hxid (hall x hx)
    · rw [hcreated]
      simp [List.filter_cons, hfilter]

/-- C9 witness: pushing a record into the empty collection inserts it. -/
theorem issueCreated_insert_or_skip_witness :
    onIssueCreated [] (mkIssue "A" Status.«open» []) = [mkIssue "A" Status.«open» []] :=
  (issueCreated_insert_or_skip [] (mkIssue "A" Status.«open» [])).1 (by decide)

/-- The candidate an id contributes in the words of the spec: the value of
its trailing digit run, or no candidate when there is no trailing digit run. -/
def specTrailingVal (s : String) : Option Nat :=
  if trailingDigits s = [] then none else some (digitsVal (trailingDigits s))

/-- The maximum of the contributed candidates in the words of the spec,
0 when the collection is empty or no id has a digit suffix. -/
def specMaxId (issues : List Issue) : Nat :=
  (issues.filterMap (fun i => specTrailingVal i.id)).foldl max 0

lemma foldl_max_candidates (l : List Issue) :
    ∀ a : Nat, (l.map (fun i => idCandidate i.id)).foldl max a
      = (l.filterMap (fun i => specTrailingVal i.id)).foldl max a := by
  induction l with
  | nil => intro a; rfl
  | cons x xs ih =>
      intro a
      by_cases h : trailingDigits x.id = []
      · simp only [List.map_cons, List.foldl_cons, List.filterMap_cons,
          idCandidate, specTrailingVal, if_pos h, Nat.max_comm a 0, Nat.zero_max]
        exact ih a
      · simp only [List.map_cons, List.foldl_cons, List.filterMap_cons,
          idCandidate, specTrailingVal, if_neg h]
        exact ih _

/-- C5: generateNextIssueId returns the fixed prefix BD- followed by one more
than the maximum trailing-digit-run value over all ids (0 when the collection
is empty or no id has a digit suffix, ids without a digit suffix contributing
no candidate), and in particular the empty collection yields BD-1, the
collection BD-1, BD-2, BD-3 yields BD-4, the collection test-1, test-2,
BD-10, test-5 yields BD-11, and the collection BD-1760553600806,
BD-1760553775496, BD-5 yields BD-1760553775497. -/
theorem generateNextIssueId_spec :
    (∀ issues : List Issue,
        generateNextIssueId issues = "BD-" ++ toString (specMaxId issues + 1)) ∧
    generateNextIssueId [] = "BD-1" ∧
    generateNextIssueId [mkIssue "BD-1" Status.«open» [], mkIssue "BD-2" Status.«open» [],
        mkIssue "BD-3" Status.«open» []] = "BD-4" ∧
    generateNextIssueId [mkIssue "test-1" Status.«open» [], mkIssue "test-2" Status.«open» [],
        mkIssue "BD-10" Status.«open» [], mkIssue "test-5" Status.«open» []] = "BD-11" ∧
    generateNextIssueId [mkIssue "BD-1760553600806" Status.«open» [],
        mkIssue "BD-1760553775496" Status.«open» [], mkIssue "BD-5" Status.«open» []]
      = "BD-1760553775497" := by
  refine ⟨fun issues => ?_, by decide, by decide, by decide, by decide⟩
  rw [generateNextIssueId, specMaxId]
  cases issues with
  | nil => rfl
  | cons x xs =>
      simp only [List.length_cons, Nat.zero_lt_succ, if_pos, List.length_map,
        Nat.succ_sub_one, gt_iff_lt]
      rw [foldl_max_candidates]

lemma status_or_iff_ne_closed (s : Status) :
    (s = Status.«open» ∨ s = Status.in_progress ∨ s = Status.blocked) ↔ s ≠ Status.closed := by
  cases s <;> decide

lemma find_id_of_nodup (l : List Issue) (hnodup : (l.map Issue.id).Nodup)
    (x : String) (b : Issue) (hb : b ∈ l) (hbx : b.id = x) :
    l.find? (fun i => i.id == x) = some b := by
  induction l with
  | nil => cases hb
  | cons a t ih =>
      rw [List.map_cons, List.nodup_cons] at hnodup
      rcases List.mem_cons.mp hb with rfl | hbt
      · have hpa : (b.id == x) = true := beq_iff_eq.mpr hbx
        simp [List.find?_cons, hpa]
      · by_cases hab : a.id = x
        · exact absurd (by rw [hab, ← hbx]; exact List.mem_map_of_mem Issue.id hbt) hnodup.1
        · have hpa : (a.id == x) = false := by
            simp only [beq_eq_false_iff_ne, ne_eq]
            exact hab
          simp only [List.find?_cons, hpa, cond_false]
          exact ih hnodup.2 hbt

lemma isOpenBlocker_false_iff (issues : List Issue)
    (hnodup : (issues.map Issue.id).Nodup) (d : Dependency) :
    isOpenBlocker issues d = false ↔
      ∀ b ∈ issues, b.id = d.depends_on_id → b.status = Status.closed := by
  constructor
  · intro h b hb hbid
    rw [isOpenBlocker, find_id_of_nodup issues hnodup _ b hb hbid] at h
    have h' : ([Status.«open», Status.in_progress, Status.blocked].contains b.status) = false := h
    cases hbs : b.status
    · rw [hbs] at h'; exact absurd h' (by decide)
    · rw [hbs] at h'; exact absurd h' (by decide)
    · rw [hbs] at h'; exact absurd h' (by decide)
    · rfl
  · intro h
    rw [isOpenBlocker]
    cases hf : issues.find? (fun i => i.id == d.depends_on_id) with
    | none => rfl
    | some blocker =>
        have hmem := List.mem_of_find?_eq_some hf
        have hpred := List.find?_some hf
        simp only [beq_iff_eq] at hpred
        have hcl := h blocker hmem hpred
        have : ([Status.«open», Status.in_progress, Status.blocked].contains blocker.status) = false := by
          rw [hcl]
          decide
        exact this

lemma isOpenBlocker_true_iff (issues : List Issue)
    (hnodup : (issues.map Issue.id).Nodup) (d : Dependency) :
    isOpenBlocker issues d = true ↔
      ∃ b ∈ issues, b.id = d.depends_on_id ∧ b.status ≠ Status.closed := by
  constructor
  · intro h
    by_contra hc
    push_neg at hc
    have := (isOpenBlocker_false_iff issues hnodup d).mpr hc
    rw [this] at h
    cases h
  · rintro ⟨b, hb, hbid, hbs⟩
    by_contra hc
    rw [Bool.not_eq_true] at hc
    exact hbs ((isOpenBlocker_false_iff issues hnodup d).mp hc b hb hbid)

lemma mem_getReadyIssues_iff (issues : List Issue) (i : Issue) :
    i ∈ getReadyIssues issues ↔
      i ∈ issues ∧ i.status = Status.«open» ∧
        ∀ d ∈ blockingDepsOf i, isOpenBlocker issues d = false := by
  simp only [getReadyIssues, List.mem_filter, beq_iff_eq, and_assoc]
  refine and_congr_right fun _ => and_congr_right fun _ => ?_
  by_cases hlen : (blockingDepsOf i).length = 0
  · rw [if_pos hlen, List.length_eq_zero.mp hlen]
    simp
  · rw [if_neg hlen, Bool.not_eq_true', List.any_eq_false]
    constructor
    · exact fun h d hd => Bool.eq_false_iff.mpr (h d hd)
    · exact fun h d hd => by rw [h d hd]; exact Bool.false_ne_true

lemma mem_getBlockedIssues_iff (issues : List Issue) (i : Issue) :
    i ∈ getBlockedIssues issues ↔
      i ∈ issues ∧ i.status ≠ Status.closed ∧
        (blockingDepsOf i).any (fun d => isOpenBlocker issues d) = true := by
  by_cases hst : i.status = Status.closed
  · simp [getBlockedIssues, List.mem_filter, hst]
  · simp only [getBlockedIssues, List.mem_filter, ne_eq, hst, not_false_iff, true_and,
      and_congr_right_iff]
    have : (i.status == Status.closed) = false := by
      simp only [beq_eq_false_iff_ne, ne_eq]
      exact hst
    rw [this]
    simp [hst]

/-- C3 counterexample: an open issue whose only blocks dependency is dangling
(its target id matches no issue in the collection) is included in
getReadyIssues, although not every one of its blocks dependencies points to
an issue whose status is closed — the stated equivalence fails there. -/
theorem ready_claim_fails_on_dangling_edge :
    (mkIssue "A" Status.«open» [⟨"A", "GHOST", DependencyType.blocks, "t0", "u"⟩]
        ∈ getReadyIssues [mkIssue "A" Status.«open» [⟨"A", "GHOST", DependencyType.blocks, "t0", "u"⟩]]) ∧
    ¬ (∀ d ∈ blockingDepsOf (mkIssue "A" Status.«open» [⟨"A", "GHOST", DependencyType.blocks, "t0", "u"⟩]),
        ∃ b ∈ [mkIssue "A" Status.«open» [⟨"A", "GHOST", DependencyType.blocks, "t0", "u"⟩]],
          b.id = d.depends_on_id ∧ b.status = Status.closed) := by decide

/-- C3 amended: over a collection with pairwise distinct ids, an issue of the
collection is in getReadyIssues exactly when its status is open and every
blocks-typed dependency whose target id resolves to an issue of the
collection points to one whose status is closed; dangling blocks
dependencies never block, an open issue with zero blocks dependencies is
always included, and non-blocks dependency types never affect the result. -/
theorem getReadyIssues_characterization (issues : List Issue) (i : Issue)
    (hmem : i ∈ issues) (hnodup : (issues.map Issue.id).Nodup) :
    i ∈ getReadyIssues issues ↔
      (i.status = Status.«open» ∧
        ∀ d ∈ blockingDepsOf i, ∀ b ∈ issues, b.id = d.depends_on_id →
          b.status = Status.closed) := by
  rw [mem_getReadyIssues_iff]
  constructor
  · rintro ⟨_, hst, hall⟩
    exact ⟨hst, fun d hd => (isOpenBlocker_false_iff issues hnodup d).mp (hall d hd)⟩
  · rintro ⟨hst, hall⟩
    exact ⟨hmem, hst, fun d hd => (isOpenBlocker_false_iff issues hnodup d).mpr (hall d hd)⟩

/-- C3 witness: a singleton collection holding one open issue without
dependencies; the characterization places it in the ready set. -/
theorem getReadyIssues_characterization_witness :
    mkIssue "W3" Status.«open» [] ∈ getReadyIssues [mkIssue "W3" Status.«open» []] := by
  have h := getReadyIssues_characterization [mkIssue "W3" Status.«open» []]
      (mkIssue "W3" Status.«open» []) (by decide) (by decide)
  exact h.mpr (by decide)

/-- C4: over a collection with pairwise distinct ids, an issue of the
collection is in getBlockedIssues exactly when its status is not closed and
at least one blocks-typed dependency points to an issue of the collection
whose status is open, in_progress or blocked; the test is independent of the
issue's own stored status besides the not-closed guard, and without any such
edge the issue is excluded. -/
theorem getBlockedIssues_characterization (issues : List Issue) (i : Issue)
    (hmem : i ∈ issues) (hnodup : (issues.map Issue.id).Nodup) :
    i ∈ getBlockedIssues issues ↔
      (i.status ≠ Status.closed ∧
        ∃ d ∈ blockingDepsOf i, ∃ b ∈ issues, b.id = d.depends_on_id ∧
          (b.status = Status.«open» ∨ b.status = Status.in_progress ∨
            b.status = Status.blocked)) := by
  rw [mem_getBlockedIssues_iff]
  constructor
  · rintro ⟨_, hst, hany⟩
    obtain ⟨d, hd, hdt⟩ := List.any_eq_true.mp hany
    obtain ⟨b, hb, hbid, hbs⟩ := (isOpenBlocker_true_iff issues hnodup d).mp hdt
    exact ⟨hst, d, hd, b, hb, hbid, (status_or_iff_ne_closed b.status).mpr hbs⟩
  · rintro ⟨hst, d, hd, b, hb, hbid, hbs⟩
    refine ⟨hmem, hst, List.any_eq_true.mpr ⟨d, hd, ?_⟩⟩
    exact (isOpenBlocker_true_iff issues hnodup d).mpr
      ⟨b, hb, hbid, (status_or_iff_ne_closed b.status).mp hbs⟩

/-- C4 witness: issue X with a blocks dependency on the open issue Y; the
characterization places X in the blocked set of the two-issue collection. -/
theorem getBlockedIssues_characterization_witness :
    mkIssue "X" Status.«open» [⟨"X", "Y", DependencyType.blocks, "t", "u"⟩]
      ∈ getBlockedIssues
          [mkIssue "X" Status.«open» [⟨"X", "Y", DependencyType.blocks, "t", "u"⟩],
           mkIssue "Y" Status.«open» []] := by
  have h := getBlockedIssues_characterization
      [mkIssue "X" Status.«open» [⟨"X", "Y", DependencyType.blocks, "t", "u"⟩],
       mkIssue "Y" Status.«open» []]
      (mkIssue "X" Status.«open» [⟨"X", "Y", DependencyType.blocks, "t", "u"⟩])
      (by decide) (by decide)
  exact h.mpr (by decide)

/-- C10: a blocks-typed dependency whose target id matches no issue in the
collection never counts as blocking: an issue of the collection all of whose
blocks dependencies are dangling is in the ready set whenever its status is
open, and is never in the blocked set. -/
theorem dangling_blocks_never_block (issues : List Issue) (i : Issue)
    (hmem : i ∈ issues)
    (hdangling : ∀ d ∈ blockingDepsOf i, ∀ b ∈ issues, b.id ≠ d.depends_on_id) :
    (i.status = Status.«open» → i ∈ getReadyIssues issues) ∧
      i ∉ getBlockedIssues issues := by
  have hfalse : ∀ d ∈ blockingDepsOf i, isOpenBlocker issues d = false := by
    intro d hd
    rw [isOpenBlocker]
    have hnone : issues.find? (fun b => b.id == d.depends_on_id) = none := by
      rw [List.find?_eq_none]
      intro b hb hcontra
      exact hdangling d hd b hb (by simpa using hcontra)
    rw [hnone]
  constructor
  · intro hst
    exact (mem_getReadyIssues_iff issues i).mpr ⟨hmem, hst, hfalse⟩
  · intro hcon
    obtain ⟨_, _, hany⟩ := (mem_getBlockedIssues_iff issues i).mp hcon
    obtain ⟨d, hd, hdt⟩ := List.any_eq_true.mp hany
    rw [hfalse d hd] at hdt
    cases hdt

/-- C10 witness: an open issue whose single blocks dependency targets an id
absent from the collection is ready and not blocked. -/
theorem dangling_blocks_never_block_witness :
    (mkIssue "W10" Status.«open» [⟨"W10", "NOPE", DependencyType.blocks, "t", "u"⟩]
        ∈ getReadyIssues [mkIssue "W10" Status.«open» [⟨"W10", "NOPE", DependencyType.blocks, "t", "u"⟩]]) ∧
      mkIssue "W10" Status.«open» [⟨"W10", "NOPE", DependencyType.blocks, "t", "u"⟩]
        ∉ getBlockedIssues [mkIssue "W10" Status.«open» [⟨"W10", "NOPE", DependencyType.blocks, "t", "u"⟩]] := by
  have h := dangling_blocks_never_block
      [mkIssue "W10" Status.«open» [⟨"W10", "NOPE", DependencyType.blocks, "t", "u"⟩]]
      (mkIssue "W10" Status.«open» [⟨"W10", "NOPE", DependencyType.blocks, "t", "u"⟩])
      (by decide) (by decide)
  exact ⟨h.1 rfl, h.2⟩

/-- C6: for a non-blank trimmed target id, on an issue whose edited
dependency edges all carry the issue's own id as source, handleAddDependency
appends the new edge exactly when no edge with the same ordered
(issue_id, depends_on_id) pair already exists on that issue (the check is
independent of the existing edge's type) and the target id corresponds to a
known issue of the collection; when either check fails, an error is reported
and the dependency list is left unchanged. -/
theorem handleAddDependency_spec (issues : List Issue) (issue : Issue)
    (editedDeps : List Dependency) (newDependencyId : String)
    (newDependencyType : DependencyType) (now createdBy : String)
    (hwf : ∀ d ∈ editedDeps, d.issue_id = issue.id)
    (ht : jsTrim newDependencyId ≠ "") :
    ((handleAddDependency issues issue editedDeps newDependencyId newDependencyType now createdBy).1
        = editedDeps ++ [{ issue_id := issue.id, depends_on_id := jsTrim newDependencyId,
                           type := newDependencyType, created_at := now, created_by := createdBy }]
      ↔ (¬ (∃ d ∈ editedDeps, d.issue_id = issue.id ∧ d.depends_on_id = jsTrim newDependencyId) ∧
          ∃ b ∈ issues, b.id = jsTrim newDependencyId)) ∧
    (((∃ d ∈ editedDeps, d.issue_id = issue.id ∧ d.depends_on_id = jsTrim newDependencyId) ∨
        ¬ ∃ b ∈ issues, b.id = jsTrim newDependencyId) →
      ((handleAddDependency issues issue editedDeps newDependencyId newDependencyType now createdBy).1
          = editedDeps ∧
        (handleAddDependency issues issue editedDeps newDependencyId newDependencyType now createdBy).2
          ≠ none)) := by
  have happend : ∀ x : Dependency, editedDeps ≠ editedDeps ++ [x] := by
    intro x h
    have := congrArg List.length h
    simp at this
  simp only [handleAddDependency]
  rw [if_neg ht]
  by_cases hdup : editedDeps.any (fun d => d.depends_on_id == jsTrim newDependencyId) = true
  · rw [if_pos hdup]
    obtain ⟨d0, hd0, hd0t⟩ := List.any_eq_true.mp hdup
    rw [beq_iff_eq] at hd0t
    have hdupP : ∃ d ∈ editedDeps, d.issue_id = issue.id ∧ d.depends_on_id = jsTrim newDependencyId :=
      ⟨d0, hd0, hwf d0 hd0, hd0t⟩
    constructor
    · constructor
      · intro h
        exact absurd h (happend _)
      · rintro ⟨hnd, _⟩
        exact absurd hdupP hnd
    · intro _
      exact ⟨rfl, by simp⟩
  · rw [if_neg hdup]
    have hnodupP : ¬ ∃ d ∈ editedDeps, d.issue_id = issue.id ∧ d.depends_on_id = jsTrim newDependencyId := by
      rintro ⟨d0, hd0, _, hd0t⟩
      exact hdup (List.any_eq_true.mpr ⟨d0, hd0, beq_iff_eq.mpr hd0t⟩)
    cases hf : issues.find? (fun i => i.id == jsTrim newDependencyId) with
    | none =>
        have hnk : ¬ ∃ b ∈ issues, b.id = jsTrim newDependencyId := by
          rintro ⟨b, hb, hbid⟩
          exact List.find?_eq_none.mp hf b hb (beq_iff_eq.mpr hbid)
        constructor
        · constructor
          · intro h
            exact absurd h (happend _)
          · rintro ⟨_, hk⟩
            exact absurd hk hnk
        · intro _
          exact ⟨rfl, by simp⟩
    | some b =>
        have hpred := List.find?_some hf
        simp only [beq_iff_eq] at hpred
        have hk : ∃ b ∈ issues, b.id = jsTrim newDependencyId :=
          ⟨b, List.mem_of_find?_eq_some hf, hpred⟩
        constructor
        · exact ⟨fun _ => ⟨hnodupP, hk⟩, fun _ => rfl⟩
        · rintro (hd | hn)
          · exact absurd hd hnodupP
          · exact absurd hk hn

/-- C6 witness: adding a dependency on the existing issue T1 from issue S1
with an empty edited list appends the edge. -/
theorem handleAddDependency_spec_witness :
    (handleAddDependency [mkIssue "T1" Status.«open» []] (mkIssue "S1" Status.«open» [])
        [] "T1" DependencyType.blocks "t" "system").1
      = [{ issue_id := "S1", depends_on_id := "T1", type := DependencyType.blocks,
           created_at := "t", created_by := "system" }] := by
  have h := handleAddDependency_spec [mkIssue "T1" Status.«open» []]
      (mkIssue "S1" Status.«open» []) [] "T1" DependencyType.blocks "t" "system"
      (by intro d hd; cases hd) (by decide)
  rw [h.1.mpr (by decide)]
  decide
